import Mathlib

/-!
Verification development for the Simple-Flow bulk import subsystem.

Shallow embedding of the bulk import engine (src/src/utils/bulk-import.ts)
and the import tracker (src/src/utils/import-tracker.ts).  Record fields
carry Option String values: none models a JavaScript undefined property,
some s models a string value (the CSV reader produces strings; the same
fragment covers the string-valued JSON inputs).  Machine-level collaborators
(mongoose collections, the file system, JSON.parse) are modelled as explicit
parameters or as abstract database states.
-/

namespace SimpleFlow

/-! ## JavaScript value helpers

Truthiness and numeric coercion of optional string values, as used by the
validators in bulk-import.ts.  A missing property (undefined) and the empty
string are falsy; every other string is truthy.
-/

/-- Truthiness of an optional string value: undefined and the empty string
are falsy, every other string is truthy. -/
def truthy : Option String → Bool
  | none => false
  | some s => !(s == "")

/-- The JavaScript expression a or-else b on optional string values:
a when a is truthy, otherwise b. -/
def jsOr (a b : Option String) : Option String :=
  if truthy a then a else b

/-- The JavaScript expression v or-else d for a string default: the value
when truthy, otherwise the default. -/
def jsOrDefault (v : Option String) (d : String) : String :=
  if truthy v then v.getD "" else d

/-- Longest leading run of decimal digits, as a number; none when the run
is empty (parseInt returns NaN there). -/
def parseDigits (cs : List Char) : Option Nat :=
  let ds := cs.takeWhile Char.isDigit
  if ds.isEmpty then none
  else some (ds.foldl (fun acc c => acc * 10 + (c.toNat - 48)) 0)

/-- Model of JavaScript parseInt on decimal string inputs: skip leading
whitespace, read an optional sign, then the longest digit prefix; none
models NaN.  Hexadecimal prefixes are not modelled; no claim input uses
them. -/
def jsParseInt (s : String) : Option Int :=
  let cs := s.data.dropWhile (fun c => c == ' ' || c == '\t' || c == '\n' || c == '\r')
  match cs with
  | '-' :: rest => (parseDigits rest).map (fun n => -(n : Int))
  | '+' :: rest => (parseDigits rest).map (fun n => (n : Int))
  | _ => (parseDigits cs).map (fun n => (n : Int))

/-- The coercion parseInt(v) or-else 0 applied to an optional string field:
parseInt(undefined) is NaN, and NaN or-else 0 is 0. -/
def parseIntOrZero (v : Option String) : Int :=
  match v with
  | none => 0
  | some s => (jsParseInt s).getD 0

/-! ## Customer records and the customer validator

CustomerInput lists exactly the properties that validateCustomerRecord in
bulk-import.ts reads from a raw record.  The canonical record keeps the
mrr and churn_date source values raw: their parsed forms are a float and a
Date, environment values no claim depends on.
-/

/-- Raw organization (customer) record: each field is an optional string,
mirroring property access on the generic parsed record. -/
structure CustomerInput where
  name : Option String := none
  email : Option String := none
  status : Option String := none
  health_score : Option String := none
  mrr : Option String := none
  plan : Option String := none
  churn_date : Option String := none
  scheduling_appointments : Option String := none
  telehealth_sessions : Option String := none
  notes_created : Option String := none
  billing_transactions : Option String := none
  insurance_claims : Option String := none
  claims_filed : Option String := none
  client_portal_logins : Option String := none
  measurement_assessments : Option String := none
  treatment_plans : Option String := none
deriving DecidableEq, Repr

/-- Canonical feature usage block built by validateCustomerRecord. -/
structure FeatureUsage where
  scheduling_appointments : Int
  telehealth_sessions : Int
  notes_created : Int
  billing_transactions : Int
  insurance_claims : Int
  claims_filed : Int
  client_portal_logins : Int
  measurement_assessments : Int
  treatment_plans : Int
deriving DecidableEq, Repr

/-- Canonical customer record built by validateCustomerRecord.  The mrr and
churn_date fields keep the raw source value (parseFloat and the Date
constructor are unmodelled environment coercions unused by every claim). -/
structure CustomerCanonical where
  name : String
  email : String
  status : String
  health_score : Int
  mrr : Option String
  plan : String
  churn_date : Option String
  feature_usage : FeatureUsage
deriving DecidableEq, Repr

/-- Valid customer status values. -/
def validStatuses : List String := ["active", "at_risk", "churned"]

/-- Embedding of BulkImporter.validateCustomerRecord: requires truthy name
and email, rejects a truthy status outside the fixed enum, and coerces the
numeric fields with parseInt or-else 0.  The claims_filed field is computed
from the JavaScript expression
parseInt(record.claims_filed or-else record.insurance_claims) or-else 0. -/
def validateCustomerRecord (r : CustomerInput) : Except String CustomerCanonical :=
  if !(truthy r.name) || !(truthy r.email) then
    .error "Customer must have name and email"
  else if truthy r.status && !(validStatuses.contains (r.status.getD "")) then
    .error ("Invalid status: " ++ r.status.getD "" ++ ". Must be one of: active, at_risk, churned")
  else
    .ok {
      name := r.name.getD ""
      email := r.email.getD ""
      status := jsOrDefault r.status "active"
      health_score := parseIntOrZero r.health_score
      mrr := r.mrr
      plan := jsOrDefault r.plan "Starter"
      churn_date := r.churn_date
      feature_usage := {
        scheduling_appointments := parseIntOrZero r.scheduling_appointments
        telehealth_sessions := parseIntOrZero r.telehealth_sessions
        notes_created := parseIntOrZero r.notes_created
        billing_transactions := parseIntOrZero r.billing_transactions
        insurance_claims := parseIntOrZero r.insurance_claims
        claims_filed := parseIntOrZero (jsOr r.claims_filed r.insurance_claims)
        client_portal_logins := parseIntOrZero r.client_portal_logins
        measurement_assessments := parseIntOrZero r.measurement_assessments
        treatment_plans := parseIntOrZero r.treatment_plans } }

example : parseIntOrZero (some "42") = 42 := by decide
example : parseIntOrZero (some "") = 0 := by decide
example : parseIntOrZero none = 0 := by decide
example : jsParseInt "  -7x" = some (-7) := by decide
example :
    (validateCustomerRecord { name := some "A", email := some "e" }).toOption.map
      (fun c => c.feature_usage.claims_filed) = some 0 := by decide

/-! ## Import tracker (import-tracker.ts)

The in-process tracker state is the importedIds list; trackRecord is the
membership-checked push of ImportTracker.trackRecord, and trackRecords folds
it over a list of ids.
-/

/-- Embedding of ImportTracker.trackRecord: push the id unless the list
already contains it. -/
def trackRecord (ids : List String) (recordId : String) : List String :=
  if ids.contains recordId then ids else ids ++ [recordId]

/-- Embedding of ImportTracker.trackRecords: track each id in order. -/
def trackRecords (ids : List String) (recordIds : List String) : List String :=
  recordIds.foldl trackRecord ids

/-- One tracker mutation: a trackRecord call or a trackRecords call. -/
inductive TrackOp where
  | one (id : String)
  | many (ids : List String)
deriving DecidableEq, Repr

/-- Apply one tracker mutation to the id list. -/
def applyTrackOp (ids : List String) : TrackOp → List String
  | .one id => trackRecord ids id
  | .many l => trackRecords ids l

/-- Apply a whole call sequence to the fresh tracker (empty id list). -/
def applyTrackOps (ops : List TrackOp) : List String :=
  ops.foldl applyTrackOp []

/-- Import type of a session, from the ImportSession schema. -/
inductive ImportType where
  | bulkImport
  | manual
  | seed
deriving DecidableEq, Repr

/-- Session status, from the ImportSession schema.  The partial status is
named partialStatus because the original word is a Lean keyword. -/
inductive SessionStatus where
  | completed
  | failed
  | partialStatus
deriving DecidableEq, Repr

/-- The four entity kinds supported by the importer and by the modelMap of
ImportTracker.clearImportedData. -/
inductive ModelName where
  | customers
  | users
  | appconfigs
  | activitylogs
deriving DecidableEq, Repr

/-- Persisted ImportSession document.  The importDate field (wall-clock
time) is not modelled; no claim depends on it. -/
structure SessionDoc where
  sessionId : String
  importType : ImportType
  modelName : ModelName
  fileName : Option String
  recordsImported : Nat
  importedIds : List String
  status : SessionStatus
deriving DecidableEq, Repr

/-- Embedding of ImportTracker.saveSession: the persisted document carries
the final id list, its length as recordsImported, and the given status. -/
def saveSession (sid : String) (ity : ImportType) (model : ModelName)
    (fileName : Option String) (ids : List String) (status : SessionStatus) : SessionDoc :=
  { sessionId := sid
    importType := ity
    modelName := model
    fileName := fileName
    recordsImported := ids.length
    importedIds := ids
    status := status }

/-! ## Bulk import engine (bulk-import.ts)

The engine is generic in the raw record type Rec and the canonical type
Canon, with the per-entity validator passed as a function, mirroring the
dispatch of validateAndTransformRecord.  Storage outcomes are an explicit
environment: bulkOk says whether the insertMany call of the batch starting
at a given index succeeds (a successful unordered insertMany returns every
document), and createOk says whether the individual create of the record at
a given global index succeeds.  Inserted document ids are drawn from a
counter threaded through the state.
-/

/-- One entry of the stats error list: 1-based global record number, the
error message, and the raw record. -/
structure ImportError (Rec : Type) where
  record : Nat
  error : String
  data : Rec
deriving DecidableEq, Repr

/-- The ImportStats counters and error list.  Wall-clock start and end
times are not modelled. -/
structure Stats (Rec : Type) where
  totalRecords : Nat
  successfulInserts : Nat
  failedInserts : Nat
  skippedRecords : Nat
  errors : List (ImportError Rec)
deriving DecidableEq, Repr

/-- Mutable state of one import run: the stats, the tracker id list, and
the fresh-id counter standing in for storage-assigned document ids. -/
structure EngineState (Rec : Type) where
  stats : Stats Rec
  importedIds : List String
  nextId : Nat
deriving DecidableEq, Repr

/-- Storage behavior oracle: outcomes of the bulk insert per batch start
index and of the individual create per global record index. -/
structure StorageEnv where
  bulkOk : Nat → Bool
  createOk : Nat → Bool

/-- Validation pass over one batch (the map at the top of
BulkImporter.processBatch): failing records push an error entry carrying
the raw record and the 1-based global index and are counted as skipped;
passing records are collected in order for the storage call. -/
def validateBatch {Rec Canon : Type} (validate : Rec → Except String Canon)
    (startIndex : Nat) : List Rec → Nat → Stats Rec → List Canon × Stats Rec
  | [], _, s => ([], s)
  | r :: rs, idx, s =>
    match validate r with
    | .ok c =>
      let (cs, s') := validateBatch validate startIndex rs (idx + 1) s
      (c :: cs, s')
    | .error msg =>
      validateBatch validate startIndex rs (idx + 1)
        { s with
          errors := s.errors ++ [{ record := startIndex + idx + 1, error := msg, data := r }]
          skippedRecords := s.skippedRecords + 1 }

/-- Embedding of BulkImporter.fallbackIndividualInsert: one sequential
create per record of the raw batch, re-running validation; every failure
(validation or storage) pushes an error entry and counts as a failed
insert, every success tracks its id and counts as a successful insert. -/
def fallbackInsert {Rec Canon : Type} (validate : Rec → Except String Canon)
    (env : StorageEnv) (startIndex : Nat) :
    List Rec → Nat → EngineState Rec → EngineState Rec
  | [], _, st => st
  | r :: rs, i, st =>
    match validate r with
    | .error msg =>
      fallbackInsert validate env startIndex rs (i + 1)
        { st with stats :=
            { st.stats with
              errors := st.stats.errors ++
                [{ record := startIndex + i + 1, error := msg, data := r }]
              failedInserts := st.stats.failedInserts + 1 } }
    | .ok _ =>
      if env.createOk (startIndex + i) then
        fallbackInsert validate env startIndex rs (i + 1)
          { st with
            importedIds := trackRecord st.importedIds (toString st.nextId)
            nextId := st.nextId + 1
            stats := { st.stats with successfulInserts := st.stats.successfulInserts + 1 } }
      else
        fallbackInsert validate env startIndex rs (i + 1)
          { st with stats :=
              { st.stats with
                errors := st.stats.errors ++
                  [{ record := startIndex + i + 1, error := "insert failed", data := r }]
                failedInserts := st.stats.failedInserts + 1 } }

/-- Embedding of BulkImporter.processBatch: validate, skip storage when no
record passed, otherwise attempt the bulk insert (success returns one id
per validated record, all tracked, and successfulInserts grows by their
count); when the bulk insert throws, fall back to individual inserts over
the raw batch. -/
def processBatch {Rec Canon : Type} (validate : Rec → Except String Canon)
    (env : StorageEnv) (batch : List Rec) (startIndex : Nat)
    (st : EngineState Rec) : EngineState Rec :=
  let vs := validateBatch validate startIndex batch 0 st.stats
  let st' : EngineState Rec := { st with stats := vs.2 }
  if vs.1.isEmpty then st'
  else if env.bulkOk startIndex then
    let k := vs.1.length
    let ids := (List.range k).map (fun j => toString (st'.nextId + j))
    { st' with
      importedIds := trackRecords st'.importedIds ids
      nextId := st'.nextId + k
      stats := { st'.stats with successfulInserts := st'.stats.successfulInserts + k } }
  else
    fallbackInsert validate env startIndex batch 0 st'

/-- Effective batch size: config.batchSize or-else the default 1000 (zero
is falsy in the source expression, and the constructor default is 1000). -/
def effBs (bs : Nat) : Nat := if bs = 0 then 1000 else bs

/-- Batch loop of BulkImporter.processBatches, with an explicit fuel that
is an upper bound on the number of loop iterations (each iteration consumes
at least one record, so the record count suffices); i is the start index of
the current window. -/
def processBatchesFuel {Rec Canon : Type} (validate : Rec → Except String Canon)
    (env : StorageEnv) (b : Nat) :
    Nat → List Rec → Nat → EngineState Rec → EngineState Rec
  | 0, _, _, st => st
  | _ + 1, [], _, st => st
  | fuel + 1, data, i, st =>
    let st' := processBatch validate env (data.take b) i st
    processBatchesFuel validate env b fuel (data.drop b) (i + b) st'

/-- Embedding of BulkImporter.processBatches: set totalRecords and run the
window loop from index 0. -/
def processBatches {Rec Canon : Type} (validate : Rec → Except String Canon)
    (env : StorageEnv) (bs : Nat) (data : List Rec)
    (st : EngineState Rec) : EngineState Rec :=
  processBatchesFuel validate env (effBs bs)
    data.length data 0 { st with stats := { st.stats with totalRecords := data.length } }

/-- Terminal session status computed at the end of BulkImporter.import. -/
def statusOf {Rec : Type} (s : Stats Rec) : SessionStatus :=
  if s.failedInserts > 0 then
    (if s.successfulInserts > 0 then .partialStatus else .failed)
  else .completed

/-- Embedding of BulkImporter.import after the data is loaded: fresh stats
and tracker, the batch loop, and the final saveSession call with the
terminal status.  Returns the stats and the persisted session. -/
def runImport {Rec Canon : Type} (validate : Rec → Except String Canon)
    (env : StorageEnv) (bs : Nat) (sid : String) (fileName : Option String)
    (model : ModelName) (data : List Rec) : Stats Rec × SessionDoc :=
  let st0 : EngineState Rec :=
    { stats :=
        { totalRecords := 0, successfulInserts := 0, failedInserts := 0
          skippedRecords := 0, errors := [] }
      importedIds := []
      nextId := 0 }
  let st := processBatches validate env bs data st0
  (st.stats, saveSession sid .bulkImport model fileName st.importedIds (statusOf st.stats))

/-! ## CSV line parser (BulkImporter.parseCSVLine)

The source walks the line with a field accumulator and an inside-quotes
flag.  The embedding folds the same step function over the characters and
appends the final field, exactly as the loop plus the trailing push do.
-/

/-- One step of the parseCSVLine loop on the state
(finished fields, current field, inside-quotes flag). -/
def parseCSVStep : List (List Char) × List Char × Bool → Char →
    List (List Char) × List Char × Bool
  | (result, current, inQuotes), c =>
    if c == '"' then (result, current, !inQuotes)
    else if c == ',' && !inQuotes then (result ++ [current], [], inQuotes)
    else (result, current ++ [c], inQuotes)

/-- Embedding of BulkImporter.parseCSVLine: fold the loop step over the
characters starting from no finished field, an empty current field and
quotes off, then push the final current field. -/
def parseCSVLine (line : String) : List String :=
  let out := line.data.foldl parseCSVStep ([], [], false)
  (out.1 ++ [out.2.1]).map (fun cs => String.mk cs)

/-- Modelled from the claim wording: split a character list into fields,
toggling an inside-quotes state at each quote character (dropping the
quote), splitting only at commas outside that state.  Returns the first
field and the remaining fields. -/
def splitCSVChars : List Char → Bool → List Char × List (List Char)
  | [], _ => ([], [])
  | c :: cs, inQ =>
    if c == '"' then splitCSVChars cs (!inQ)
    else if c == ',' && !inQ then
      let r := splitCSVChars cs inQ
      ([], r.1 :: r.2)
    else
      let r := splitCSVChars cs inQ
      (c :: r.1, r.2)

/-- Spec-side CSV splitter assembled from splitCSVChars, starting outside
quotes. -/
def csvSplitSpec (line : String) : List String :=
  let r := splitCSVChars line.data false
  (r.1 :: r.2).map (fun cs => String.mk cs)

/-! ## Source reader (BulkImporter.loadData and loadJSONData)

JSON values are a standard inductive; the file system and JSON.parse are
abstract parameters of loadData.
-/

/-- Parsed JSON value. -/
inductive Json where
  | arr (xs : List Json)
  | obj (fields : List (String × Json))
  | str (s : String)
  | num (n : Int)
  | boolean (b : Bool)
  | null

/-- Property lookup on a JSON object field list. -/
def lookupField : List (String × Json) → String → Option Json
  | [], _ => none
  | (k, v) :: rest, key => if k == key then some v else lookupField rest key

/-- The JavaScript property access value.data: a field lookup on objects,
undefined on arrays and primitives (access on null throws, handled by the
caller below). -/
def jgetData : Json → Option Json
  | .obj fields => lookupField fields "data"
  | _ => none

/-- Embedding of BulkImporter.loadJSONData on the parsed value: a top-level
array is returned as is; otherwise a truthy data property that is an array
is returned; property access on null throws a TypeError; every other shape
throws the shape error. -/
def loadJSONData : Json → Except String (List Json)
  | .arr xs => .ok xs
  | .null => .error "TypeError: Cannot read properties of null"
  | j =>
    match jgetData j with
    | some (.arr xs) => .ok xs
    | _ => .error "JSON file must contain an array or an object with a data array property"

/-- Modelled from the spec: the accepted JSON shapes, namely a top-level
array, or an object with an array under the expected key data; returns the
carried array, none for every other shape. -/
def jsonShapeOk : Json → Option (List Json)
  | .arr xs => some xs
  | .obj fields =>
    match lookupField fields "data" with
    | some (.arr ys) => some ys
    | _ => none
  | _ => none

/-- Error message loadJSONData produces for a rejected shape. -/
def jsonErrMsg : Json → String
  | .null => "TypeError: Cannot read properties of null"
  | _ => "JSON file must contain an array or an object with a data array property"

/-- Input file format. -/
inductive FileFormat where
  | json
  | csv
deriving DecidableEq, Repr

/-- Embedding of BulkImporter.loadCSVData on the file content: the first
line is the header row, every further line is split by parseCSVLine and
zipped against the trimmed headers, missing or empty values becoming the
empty string; records are rendered as JSON objects of strings.  A trailing
newline produces no extra line, as with the readline interface. -/
def loadCSVData (content : String) : List Json :=
  let lines := content.splitOn "\n"
  let lines := if lines.getLast? == some "" then lines.dropLast else lines
  match lines with
  | [] => []
  | header :: rows =>
    let headers := parseCSVLine header
    rows.map (fun row =>
      let values := parseCSVLine row
      Json.obj (headers.enum.map (fun p =>
        (p.2.trim, Json.str (match values.get? p.1 with
          | some v => if v == "" then "" else v.trim
          | none => "")))))

/-- Embedding of BulkImporter.loadData over an abstract file system fs
(path to content) and JSON parser: a missing path throws the file-not-found
error before any format dispatch; the json branch parses the whole content
and classifies its shape; the csv branch streams the lines into records. -/
def loadData (fs : String → Option String) (parse : String → Option Json)
    (filePath : String) (format : FileFormat) : Except String (List Json) :=
  match fs filePath with
  | none => .error ("File not found: " ++ filePath)
  | some content =>
    match format with
    | .json =>
      match parse content with
      | some j => loadJSONData j
      | none => .error "Unexpected token in JSON"
    | .csv => .ok (loadCSVData content)

example :
    parseCSVLine "\"Acme, Inc.\",a@b.com,active,80,199,Plus" =
      ["Acme, Inc.", "a@b.com", "active", "80", "199", "Plus"] := by decide

/-! ## Database state and the static tracker queries

The mongo layer is modelled as a state carrying the session collection and
the four entity collections (each a list of document ids).  deleteMany with
an id filter removes exactly the listed ids; deleteMany with the session
query removes exactly the matching session documents; both report the
number of documents removed.
-/

/-- Abstract database state: the ImportSession collection plus the four
entity collections (document ids), mirroring the modelMap of
clearImportedData. -/
structure Database where
  sessions : List SessionDoc
  customers : List String
  users : List String
  appconfigs : List String
  activitylogs : List String
deriving DecidableEq, Repr

/-- The entity collection of a model. -/
def entColl (db : Database) : ModelName → List String
  | .customers => db.customers
  | .users => db.users
  | .appconfigs => db.appconfigs
  | .activitylogs => db.activitylogs

/-- Replace the entity collection of a model. -/
def setColl (db : Database) : ModelName → List String → Database
  | .customers, l => { db with customers := l }
  | .users, l => { db with users := l }
  | .appconfigs, l => { db with appconfigs := l }
  | .activitylogs, l => { db with activitylogs := l }

/-- The session query used by both getImportedIds and the session cleanup
of clearImportedData: same modelName, status completed or partial, and the
importType when a filter is given. -/
def sessionMatches (model : ModelName) (ity : Option ImportType) (s : SessionDoc) : Bool :=
  s.modelName == model &&
  (s.status == .completed || s.status == .partialStatus) &&
  (match ity with
   | none => true
   | some t => s.importType == t)

/-- First-occurrence de-duplication, as the JavaScript Set constructor
performs on the concatenated id arrays. -/
def jsDedup (l : List String) : List String :=
  l.foldl (fun acc x => if acc.contains x then acc else acc ++ [x]) []

/-- Embedding of ImportTracker.getImportedIds: concatenate the id arrays of
every session matching the query, in session order, and de-duplicate. -/
def getImportedIds (db : Database) (model : ModelName) (ity : Option ImportType) :
    List String :=
  jsDedup (((db.sessions.filter (sessionMatches model ity)).map
    (fun s => s.importedIds)).flatten)

/-- Embedding of ImportTracker.clearImportedData: resolve the id union;
when it is empty return zero counts without touching the database;
otherwise delete exactly those ids from the entity collection of the model,
delete the sessions matching the query, and return both deletion counts. -/
def clearImportedData (db : Database) (model : ModelName) (ity : Option ImportType) :
    (Nat × Nat) × Database :=
  let importedIds := getImportedIds db model ity
  if importedIds.isEmpty then ((0, 0), db)
  else
    let coll := entColl db model
    let deletedCount := coll.countP (fun d => importedIds.contains d)
    let remaining := coll.filter (fun d => !(importedIds.contains d))
    let sessionsCleaned := db.sessions.countP (fun s => sessionMatches model ity s)
    let keptSessions := db.sessions.filter (fun s => !(sessionMatches model ity s))
    ((deletedCount, sessionsCleaned),
      { (setColl db model remaining) with sessions := keptSessions })

/-- The scoped-clear behavior the claim states: the entity collection keeps
exactly the documents outside the resolved id union, every matching session
document is deleted, and the two returned counts are the number of entity
documents deleted and the number of sessions deleted. -/
def clearClaimProp (db : Database) (model : ModelName) (ity : Option ImportType) : Prop :=
  let ids := getImportedIds db model ity
  let r := clearImportedData db model ity
  r.1.1 = (entColl db model).countP (fun d => ids.contains d) ∧
  r.1.2 = db.sessions.countP (fun s => sessionMatches model ity s) ∧
  r.2 = { (setColl db model ((entColl db model).filter (fun d => !(ids.contains d)))) with
            sessions := db.sessions.filter (fun s => !(sessionMatches model ity s)) }

instance (db : Database) (model : ModelName) (ity : Option ImportType) :
    Decidable (clearClaimProp db model ity) := by
  unfold clearClaimProp
  infer_instance

/-! ## Helper lemmas -/

theorem trackRecord_of_mem {ids : List String} {a : String} (h : a ∈ ids) :
    trackRecord ids a = ids := by
  simp [trackRecord, h]

theorem mem_trackRecord {ids : List String} {a x : String} :
    x ∈ trackRecord ids a ↔ x ∈ ids ∨ x = a := by
  by_cases h : a ∈ ids
  · rw [trackRecord_of_mem h]
    constructor
    · exact Or.inl
    · rintro (hx | rfl)
      · exact hx
      · exact h
  · simp [trackRecord, h]

theorem nodup_trackRecord (ids : List String) (a : String) (h : ids.Nodup) :
    (trackRecord ids a).Nodup := by
  by_cases hm : a ∈ ids
  · rw [trackRecord_of_mem hm]
    exact h
  · simp [trackRecord, hm, List.nodup_append, h]

theorem nodup_trackRecords (l : List String) : ∀ ids : List String, ids.Nodup →
    (trackRecords ids l).Nodup := by
  induction l with
  | nil => intro ids h; simpa [trackRecords]
  | cons a l ih =>
    intro ids h
    have := ih (trackRecord ids a) (nodup_trackRecord ids a h)
    simpa [trackRecords] using this

theorem mem_trackRecords (l : List String) : ∀ (ids : List String) (x : String),
    x ∈ trackRecords ids l ↔ x ∈ ids ∨ x ∈ l := by
  induction l with
  | nil => intro ids x; simp [trackRecords]
  | cons a l ih =>
    intro ids x
    have h1 := ih (trackRecord ids a) x
    simp only [trackRecords, List.foldl_cons] at h1 ⊢
    rw [h1, mem_trackRecord]
    constructor
    · rintro ((hx | rfl) | hx)
      · exact Or.inl hx
      · exact Or.inr (List.mem_cons_self _ _)
      · exact Or.inr (List.mem_cons_of_mem _ hx)
    · rintro (hx | hx)
      · exact Or.inl (Or.inl hx)
      · rcases List.mem_cons.mp hx with rfl | hx
        · exact Or.inl (Or.inr rfl)
        · exact Or.inr hx

theorem nodup_applyTrackOps (ops : List TrackOp) : (applyTrackOps ops).Nodup := by
  have main : ∀ (ops : List TrackOp) (ids : List String), ids.Nodup →
      (ops.foldl applyTrackOp ids).Nodup := by
    intro ops
    induction ops with
    | nil => intro ids h; simpa
    | cons op ops ih =>
      intro ids h
      cases op with
      | one a => exact ih _ (nodup_trackRecord ids a h)
      | many l => exact ih _ (nodup_trackRecords l ids h)
  exact main ops [] (by simp)

theorem mem_jsDedup (l : List String) (x : String) : x ∈ jsDedup l ↔ x ∈ l := by
  have main : ∀ (l acc : List String) (x : String),
      (x ∈ l.foldl (fun acc y => if acc.contains y then acc else acc ++ [y]) acc ↔
        x ∈ acc ∨ x ∈ l) := by
    intro l
    induction l with
    | nil => intro acc x; simp
    | cons a l ih =>
      intro acc x
      simp only [List.foldl_cons]
      rw [ih]
      by_cases h : acc.contains a
      · simp only [h, if_true]
        constructor
        · rintro (hx | hx)
          · exact Or.inl hx
          · exact Or.inr (List.mem_cons_of_mem _ hx)
        · rintro (hx | hx)
          · exact Or.inl hx
          · rcases List.mem_cons.mp hx with rfl | hx
            · exact Or.inl (by simpa using h)
            · exact Or.inr hx
      · simp only [h, if_false]
        constructor
        · rintro (hx | hx)
          · rcases List.mem_append.mp hx with hx | hx
            · exact Or.inl hx
            · simp at hx
              exact Or.inr (by simp [hx])
          · exact Or.inr (List.mem_cons_of_mem _ hx)
        · rintro (hx | hx)
          · exact Or.inl (List.mem_append.mpr (Or.inl hx))
          · rcases List.mem_cons.mp hx with rfl | hx
            · exact Or.inl (by simp)
            · exact Or.inr hx
  have h := main l [] x
  simpa [jsDedup] using h

theorem mem_getImportedIds (db : Database) (model : ModelName)
    (ity : Option ImportType) (x : String) :
    x ∈ getImportedIds db model ity ↔
      ∃ s, s ∈ db.sessions ∧ sessionMatches model ity s = true ∧ x ∈ s.importedIds := by
  unfold getImportedIds
  rw [mem_jsDedup]
  simp only [List.mem_flatten, List.mem_map, List.mem_filter]
  constructor
  · rintro ⟨l, ⟨s, ⟨hs, hm⟩, rfl⟩, hx⟩
    exact ⟨s, hs, hm, hx⟩
  · rintro ⟨s, hs, hm, hx⟩
    exact ⟨s.importedIds, ⟨s, ⟨hs, hm⟩, rfl⟩, hx⟩

theorem csvFold_eq (cs : List Char) : ∀ (res : List (List Char)) (cur : List Char)
    (inQ : Bool),
    (cs.foldl parseCSVStep (res, cur, inQ)).1 ++
        [(cs.foldl parseCSVStep (res, cur, inQ)).2.1] =
      res ++ (cur ++ (splitCSVChars cs inQ).1) :: (splitCSVChars cs inQ).2 := by
  induction cs with
  | nil =>
    intro res cur inQ
    simp [splitCSVChars]
  | cons c cs ih =>
    intro res cur inQ
    by_cases hq : c == '"'
    · have e1 : parseCSVStep (res, cur, inQ) c = (res, cur, !inQ) := by
        simp [parseCSVStep, hq]
      have e2 : splitCSVChars (c :: cs) inQ = splitCSVChars cs (!inQ) := by
        simp [splitCSVChars, hq]
      rw [List.foldl_cons, e1, e2, ih res cur (!inQ)]
    · by_cases hc : (c == ',' && !inQ)
      · have e1 : parseCSVStep (res, cur, inQ) c = (res ++ [cur], [], inQ) := by
          simp [parseCSVStep, hq, hc]
        have e2 : splitCSVChars (c :: cs) inQ =
            ([], (splitCSVChars cs inQ).1 :: (splitCSVChars cs inQ).2) := by
          simp [splitCSVChars, hq, hc]
        rw [List.foldl_cons, e1, e2, ih (res ++ [cur]) [] inQ]
        simp
      · have e1 : parseCSVStep (res, cur, inQ) c = (res, cur ++ [c], inQ) := by
          simp [parseCSVStep, hq, hc]
        have e2 : splitCSVChars (c :: cs) inQ =
            (c :: (splitCSVChars cs inQ).1, (splitCSVChars cs inQ).2) := by
          simp [splitCSVChars, hq, hc]
        rw [List.foldl_cons, e1, e2, ih res (cur ++ [c]) inQ]
        simp

theorem statusOf_spec {Rec : Type} (s : Stats Rec) :
    (statusOf s = .completed ↔ s.failedInserts = 0) ∧
    (statusOf s = .partialStatus ↔ 0 < s.successfulInserts ∧ 0 < s.failedInserts) ∧
    (statusOf s = .failed ↔ s.successfulInserts = 0 ∧ 0 < s.failedInserts) := by
  unfold statusOf
  rcases Nat.eq_zero_or_pos s.failedInserts with hf | hf <;>
    rcases Nat.eq_zero_or_pos s.successfulInserts with hs | hs <;>
      simp [hf, hs] <;> omega

theorem sessionMatches_status {model : ModelName} {ity : Option ImportType}
    {s : SessionDoc} (h : sessionMatches model ity s = true) :
    (s.status == SessionStatus.completed || s.status == SessionStatus.partialStatus) = true := by
  unfold sessionMatches at h
  simp only [Bool.and_eq_true] at h
  exact h.1.2

/-- The status filter applied by the session query. -/
def statusCompletedOrPartial (t : SessionDoc) : Bool :=
  t.status == SessionStatus.completed || t.status == SessionStatus.partialStatus

theorem getImportedIds_status_restricted (db : Database) (model : ModelName)
    (ity : Option ImportType) :
    getImportedIds db model ity =
      getImportedIds
        { db with sessions := db.sessions.filter statusCompletedOrPartial } model ity := by
  unfold getImportedIds
  have hfilter : db.sessions.filter (sessionMatches model ity) =
      (db.sessions.filter statusCompletedOrPartial).filter (sessionMatches model ity) := by
    rw [List.filter_filter]
    apply List.filter_congr
    intro t _
    by_cases ht : sessionMatches model ity t = true
    · rw [ht]
      have := sessionMatches_status ht
      unfold statusCompletedOrPartial
      rw [this]
      rfl
    · simp only [Bool.not_eq_true] at ht
      rw [ht]
      simp
  rw [hfilter]

/-! ## Claim theorems -/

/-- A customer record passing validation. -/
def okCustomer : CustomerInput :=
  { name := some "Acme", email := some "ops@acme.io" }

/-- A customer record failing validation: the contact email is missing. -/
def badCustomer : CustomerInput :=
  { name := some "NoEmail Co" }

/-- Storage behavior where every bulk insert call throws and every
individual create succeeds. -/
def envBulkThrows : StorageEnv :=
  { bulkOk := fun _ => false, createOk := fun _ => true }

/-- Stats of the run over one valid and one invalid record whose single
bulk insert throws, with batch size 2: the invalid record is counted as
skipped during validation and then again as failed during the fallback. -/
def brokenRunStats : Stats CustomerInput :=
  (runImport validateCustomerRecord envBulkThrows 2 "session-1" (some "orgs.json")
    ModelName.customers [okCustomer, badCustomer]).1

/-- C2: the claim states successfulInserts + failedInserts + skippedRecords
equals totalRecords for every run.  The code violates it: in a run over one
valid and one invalid record whose bulk insert throws, the fallback
re-validates the whole raw batch and counts the validation-failing record
a second time, as a failed insert, so the three counters sum to 3 while
totalRecords is 2. -/
theorem claim_C2_code_bug :
    brokenRunStats.totalRecords = 2 ∧
    brokenRunStats.successfulInserts = 1 ∧
    brokenRunStats.failedInserts = 1 ∧
    brokenRunStats.skippedRecords = 1 ∧
    brokenRunStats.successfulInserts + brokenRunStats.failedInserts +
      brokenRunStats.skippedRecords ≠ brokenRunStats.totalRecords := by
  decide

/-- C3: the claim states a validation-failing record is never counted
toward successfulInserts or failedInserts.  The code violates it: in the
same run as C2 the storage environment never fails an individual create,
yet failedInserts is 1 — the validation-failing record was re-validated in
the fallback and counted as a failed insert — and its error entry (with the
raw record) appears twice in the error list. -/
theorem claim_C3_code_bug :
    brokenRunStats.failedInserts = 1 ∧
    brokenRunStats.errors.map (fun e => (e.record, e.data)) =
      [(2, badCustomer), (2, badCustomer)] := by
  decide

/-- C4: for every run reaching finalization, the persisted session status
is completed exactly when failedInserts is zero, partial exactly when both
successfulInserts and failedInserts are positive, and failed exactly when
successfulInserts is zero and failedInserts positive. -/
theorem claim_C4 {Rec Canon : Type} (validate : Rec → Except String Canon)
    (env : StorageEnv) (bs : Nat) (sid : String) (fileName : Option String)
    (model : ModelName) (data : List Rec) :
    ((runImport validate env bs sid fileName model data).2.status = SessionStatus.completed ↔
      (runImport validate env bs sid fileName model data).1.failedInserts = 0) ∧
    ((runImport validate env bs sid fileName model data).2.status = SessionStatus.partialStatus ↔
      0 < (runImport validate env bs sid fileName model data).1.successfulInserts ∧
      0 < (runImport validate env bs sid fileName model data).1.failedInserts) ∧
    ((runImport validate env bs sid fileName model data).2.status = SessionStatus.failed ↔
      (runImport validate env bs sid fileName model data).1.successfulInserts = 0 ∧
      0 < (runImport validate env bs sid fileName model data).1.failedInserts) := by
  have hst : (runImport validate env bs sid fileName model data).2.status
      = statusOf (runImport validate env bs sid fileName model data).1 := rfl
  rw [hst]
  exact statusOf_spec (runImport validate env bs sid fileName model data).1

/-- The claims_filed precedence as the claim words it: the parsed value of
the legacy field when that field is PRESENT, else the parsed value of the
renamed field when present, else zero. -/
def presenceClaimsFiled (r : CustomerInput) : Int :=
  if r.claims_filed.isSome then parseIntOrZero r.claims_filed
  else if r.insurance_claims.isSome then parseIntOrZero r.insurance_claims
  else 0

/-- The claims_filed precedence the code implements: the parsed value of
the legacy field when that field is TRUTHY (present and non-empty), else
the parsed value of the renamed field when that is truthy, else zero. -/
def amendedClaimsFiled (r : CustomerInput) : Int :=
  if truthy r.claims_filed then parseIntOrZero r.claims_filed
  else if truthy r.insurance_claims then parseIntOrZero r.insurance_claims
  else 0

/-- A customer record whose legacy claims_filed field is present but empty
while the renamed insurance_claims field parses to 7. -/
def cxCustomer : CustomerInput :=
  { name := some "Acme", email := some "ops@acme.io",
    claims_filed := some "", insurance_claims := some "7" }

/-- C5 counterexample: on a record whose legacy field is present but empty,
the claimed presence-based precedence yields 0 (the parse of the present
legacy field), but the code produces 7, the parse of the renamed field:
the JavaScript or-else falls through on a present-but-falsy legacy value. -/
theorem claim_C5_counterexample :
    (validateCustomerRecord cxCustomer).toOption.map
      (fun c => c.feature_usage.claims_filed) = some 7 ∧
    cxCustomer.claims_filed.isSome = true ∧
    presenceClaimsFiled cxCustomer = 0 := by
  decide

/-- C5 amended: for every customer record passing validation, the canonical
claims_filed equals the parse of the legacy field when its value is truthy
(present and non-empty), else the parse of the renamed insurance_claims
field when that is truthy, else zero. -/
theorem claim_C5_amended (r : CustomerInput) (c : CustomerCanonical)
    (h : validateCustomerRecord r = .ok c) :
    c.feature_usage.claims_filed = amendedClaimsFiled r := by
  unfold validateCustomerRecord at h
  split at h
  · simp at h
  · split at h
    · simp at h
    · injection h with h'
      subst h'
      show parseIntOrZero (jsOr r.claims_filed r.insurance_claims) = amendedClaimsFiled r
      unfold amendedClaimsFiled jsOr
      by_cases h1 : truthy r.claims_filed
      · simp [h1]
      · simp only [h1, if_false, Bool.false_eq_true]
        by_cases h2 : truthy r.insurance_claims
        · simp [h2]
        · simp only [h2, if_false, Bool.false_eq_true]
          cases hi : r.insurance_claims with
          | none => simp [parseIntOrZero]
          | some s =>
            have hs : s = "" := by
              by_contra hne
              apply h2
              simp [truthy, hi, hne]
            subst hs
            decide

/-- C5 witness: the amended precedence evaluated on the counterexample
record, whose validation succeeds. -/
theorem claim_C5_witness :
    (validateCustomerRecord cxCustomer).toOption.map
        (fun c => c.feature_usage.claims_filed) =
      some (amendedClaimsFiled cxCustomer) := by
  cases hok : validateCustomerRecord cxCustomer with
  | error e =>
    have hsome : (validateCustomerRecord cxCustomer).toOption.isSome = true := by decide
    rw [hok] at hsome
    simp [Except.toOption] at hsome
  | ok c =>
    have h := claim_C5_amended cxCustomer c hok
    simp [Except.toOption, h]

/-- C6: trackRecord and trackRecords are idempotent membership-checked
insertions: tracking an id already in the id set leaves the set (and hence
its size) unchanged, and after any trackRecords call on a duplicate-free
set the result is duplicate-free and every id of the argument list is
tracked exactly once. -/
theorem claim_C6 (ids : List String) (a x : String) (l : List String)
    (hmem : a ∈ ids) (hnd : ids.Nodup) (hx : x ∈ l) :
    trackRecord ids a = ids ∧
    (trackRecords ids l).Nodup ∧
    (trackRecords ids l).count x = 1 := by
  refine ⟨trackRecord_of_mem hmem, nodup_trackRecords l ids hnd, ?_⟩
  exact List.count_eq_one_of_mem (nodup_trackRecords l ids hnd)
    ((mem_trackRecords l ids x).mpr (Or.inr hx))

/-- C6 witness: re-tracking a present id is a no-op, and an id handed twice
to trackRecords ends up tracked exactly once. -/
theorem claim_C6_witness :
    trackRecord ["a"] "a" = ["a"] ∧
    (trackRecords ["a"] ["b", "b"]).Nodup ∧
    (trackRecords ["a"] ["b", "b"]).count "b" = 1 :=
  claim_C6 ["a"] "a" "b" ["b", "b"] (by decide) (by decide) (by decide)

/-- C7: for every sequence of trackRecord and trackRecords calls on a fresh
tracker, the persisted session has recordsImported equal to the length of
its importedIds list and that list holds no duplicates. -/
theorem claim_C7 (ops : List TrackOp) (sid : String) (ity : ImportType)
    (model : ModelName) (fn : Option String) (status : SessionStatus) :
    (saveSession sid ity model fn (applyTrackOps ops) status).recordsImported =
      (saveSession sid ity model fn (applyTrackOps ops) status).importedIds.length ∧
    (saveSession sid ity model fn (applyTrackOps ops) status).importedIds.Nodup := by
  exact ⟨rfl, nodup_applyTrackOps ops⟩

/-- C8: the CSV line splitter agrees on every line with the spec-side
splitter that toggles an inside-quotes state at each quote character,
splits fields only at commas outside that state, and drops the quote
characters; in particular the stated quoted line parses with the single
first field Acme, Inc. -/
theorem claim_C8 :
    (∀ line : String, parseCSVLine line = csvSplitSpec line) ∧
    parseCSVLine "\"Acme, Inc.\",a@b.com,active,80,199,Plus" =
      ["Acme, Inc.", "a@b.com", "active", "80", "199", "Plus"] := by
  constructor
  · intro line
    simp only [parseCSVLine, csvSplitSpec]
    rw [csvFold_eq line.data [] [] false]
    simp
  · decide

/-- C9: loadData fails with an error when the input path does not exist,
and loadJSONData fails with an error exactly when the parsed content is
neither a top-level array nor an object with an array under the key data,
returning that array unchanged in every other case. -/
theorem claim_C9 (fs : String → Option String) (parse : String → Option Json)
    (filePath : String) (format : FileFormat) (j : Json)
    (h : fs filePath = none) :
    loadData fs parse filePath format = .error ("File not found: " ++ filePath) ∧
    loadJSONData j = (match jsonShapeOk j with
      | some xs => Except.ok xs
      | none => Except.error (jsonErrMsg j)) := by
  constructor
  · unfold loadData
    rw [h]
  · cases j with
    | arr xs => rfl
    | null => rfl
    | str s => rfl
    | num n => rfl
    | boolean b => rfl
    | obj fields =>
      simp only [loadJSONData, jsonShapeOk, jgetData, jsonErrMsg]
      cases lookupField fields "data" with
      | none => rfl
      | some v => cases v <;> rfl

/-- C9 witness: a file system with no files rejects the path, and an object
wrapping an array under the key data is accepted with that array. -/
theorem claim_C9_witness :
    loadData (fun _ => none) (fun _ => none) "data.json" FileFormat.json =
      Except.error ("File not found: " ++ "data.json") ∧
    loadJSONData (Json.obj [("data", Json.arr [])]) =
      (match jsonShapeOk (Json.obj [("data", Json.arr [])]) with
        | some xs => Except.ok xs
        | none => Except.error (jsonErrMsg (Json.obj [("data", Json.arr [])]))) :=
  claim_C9 (fun _ => none) (fun _ => none) "data.json" FileFormat.json
    (Json.obj [("data", Json.arr [])]) rfl

/-- A session matching the customers query whose tracked id set is empty,
as a run over zero records persists. -/
def sessionEmptyCompleted : SessionDoc :=
  { sessionId := "s1", importType := .bulkImport, modelName := .customers,
    fileName := none, recordsImported := 0, importedIds := [], status := .completed }

/-- A database containing only that session. -/
def dbEmptyUnion : Database :=
  { sessions := [sessionEmptyCompleted], customers := [], users := [],
    appconfigs := [], activitylogs := [] }

/-- C1 counterexample: the claim requires every matching session document
to be deleted, but on a database whose only session matches the customers
query with an empty tracked id set, clearImportedData takes the early
return for an empty id union and leaves that session document in place
(returning zero for both counts). -/
theorem claim_C1_counterexample :
    ¬ clearClaimProp dbEmptyUnion ModelName.customers none := by
  decide

/-- C1 amended: when the resolved id union is non-empty, clearImportedData
deletes from the entity collection exactly the documents whose ids are in
the union, deletes every matching session document, and returns the two
deletion counts; when the union is empty it returns zero counts and leaves
the database (matching session documents included) untouched. -/
theorem claim_C1_amended (db : Database) (model : ModelName) (ity : Option ImportType) :
    if (getImportedIds db model ity).isEmpty
    then clearImportedData db model ity = ((0, 0), db)
    else clearClaimProp db model ity := by
  by_cases h : (getImportedIds db model ity).isEmpty
  · simp only [h, if_true]
    unfold clearImportedData
    simp [h]
  · simp only [h, if_false]
    unfold clearClaimProp clearImportedData
    simp [h]

/-- C10: the static queries consider only completed and partial sessions:
getImportedIds is unchanged by dropping every other session, an id recorded
in a failed session (and in no matching completed or partial session) is
never returned and its entity document survives clearImportedData, and the
failed session document itself is never removed by clearImportedData. -/
theorem claim_C10 (db : Database) (model : ModelName) (ity : Option ImportType)
    (s : SessionDoc) (id : String)
    (hs : s ∈ db.sessions) (hfail : s.status = SessionStatus.failed)
    (hmodel : s.modelName = model) (hid : id ∈ s.importedIds)
    (honly : ∀ t, t ∈ db.sessions → sessionMatches model ity t = true →
      id ∉ t.importedIds)
    (hcoll : id ∈ entColl db model) :
    getImportedIds db model ity =
      getImportedIds
        { db with sessions := db.sessions.filter statusCompletedOrPartial } model ity ∧
    id ∉ getImportedIds db model ity ∧
    id ∈ entColl (clearImportedData db model ity).2 model ∧
    s ∈ (clearImportedData db model ity).2.sessions := by
  have hnotin : id ∉ getImportedIds db model ity := by
    intro hmem
    rcases (mem_getImportedIds db model ity id).mp hmem with ⟨t, ht, hm, hidt⟩
    exact honly t ht hm hidt
  have hsm : sessionMatches model ity s = false := by
    unfold sessionMatches
    rw [hfail]
    cases ity <;> simp
  refine ⟨getImportedIds_status_restricted db model ity, hnotin, ?_, ?_⟩
  · unfold clearImportedData
    by_cases h : (getImportedIds db model ity).isEmpty
    · rw [if_pos h]
      exact hcoll
    · rw [if_neg h]
      revert hcoll hnotin
      cases model <;>
        (intro hcoll hnotin
         simp only [entColl, setColl]
         rw [List.mem_filter]
         refine ⟨by simpa [entColl] using hcoll, ?_⟩
         simpa using hnotin)
  · unfold clearImportedData
    by_cases h : (getImportedIds db model ity).isEmpty
    · rw [if_pos h]
      exact hs
    · rw [if_neg h]
      show s ∈ db.sessions.filter (fun t => !(sessionMatches model ity t))
      rw [List.mem_filter]
      exact ⟨hs, by simp [hsm]⟩

/-- A failed session for the customers collection tracking the id x. -/
def sessionFailedX : SessionDoc :=
  { sessionId := "f1", importType := .bulkImport, modelName := .customers,
    fileName := none, recordsImported := 1, importedIds := ["x"], status := .failed }

/-- A completed session for the customers collection tracking the id y. -/
def sessionCompletedY : SessionDoc :=
  { sessionId := "c1", importType := .bulkImport, modelName := .customers,
    fileName := none, recordsImported := 1, importedIds := ["y"], status := .completed }

/-- A database holding both sessions and both documents. -/
def dbFailedAndCompleted : Database :=
  { sessions := [sessionFailedX, sessionCompletedY], customers := ["x", "y"],
    users := [], appconfigs := [], activitylogs := [] }

/-- C10 witness: in a database with one failed session tracking x and one
completed session tracking y, the id x is not returned, the document x
survives the clear, and the failed session document survives the clear. -/
theorem claim_C10_witness :
    getImportedIds dbFailedAndCompleted ModelName.customers none =
      getImportedIds
        { dbFailedAndCompleted with
            sessions := dbFailedAndCompleted.sessions.filter statusCompletedOrPartial }
        ModelName.customers none ∧
    "x" ∉ getImportedIds dbFailedAndCompleted ModelName.customers none ∧
    "x" ∈ entColl (clearImportedData dbFailedAndCompleted ModelName.customers none).2
      ModelName.customers ∧
    sessionFailedX ∈ (clearImportedData dbFailedAndCompleted ModelName.customers none).2.sessions :=
  claim_C10 dbFailedAndCompleted ModelName.customers none sessionFailedX "x"
    (by decide) (by decide) (by decide) (by decide)
    (by decide) (by decide)

end SimpleFlow
